import Mathlib

/-!
Verification of the version-manager release script (src/version_manager.py).

Strings of the Python program are modelled as lists of characters.  Each
Python string primitive used by the script (strip, startswith, endswith,
find, slicing with negative indices, split, replace) is given a faithful
executable counterpart, and each function of the script is translated into
a Lean definition over an explicit filesystem state.  Console output and
colour codes are not modelled; the observable behaviour is file contents,
the exit code, and the sequence of external git commands attempted.
-/

/-- Python strings are modelled as lists of characters. -/
abbrev Str := List Char

/-- Literal helper: a Lean string literal as a character list. -/
def lit (s : String) : Str := s.data

/-- The double-quote character. -/
def dq : Char := Char.ofNat 34

/-- The single-quote character. -/
def sqc : Char := Char.ofNat 39

/-- The line-break character. -/
def nlc : Char := Char.ofNat 10

/-- Python whitespace, as stripped by str.strip with no argument
(space, tab, line feed, carriage return, vertical tab, form feed;
the ASCII fragment of the Python definition). -/
def isPySpace (c : Char) : Bool :=
  c = Char.ofNat 32 || c = Char.ofNat 9 || c = Char.ofNat 10 ||
  c = Char.ofNat 13 || c = Char.ofNat 11 || c = Char.ofNat 12

/-- Remove leading characters satisfying p (Python lstrip). -/
def lstripC (p : Char → Bool) (s : Str) : Str := s.dropWhile p

/-- Remove trailing characters satisfying p (Python rstrip). -/
def rstripC (p : Char → Bool) (s : Str) : Str := (s.reverse.dropWhile p).reverse

/-- Python str.strip(chars): remove all leading and trailing characters
satisfying p. -/
def pyStripChars (s : Str) (p : Char → Bool) : Str := rstripC p (lstripC p s)

/-- Python str.strip() with no argument: strip whitespace from both ends. -/
def pyStrip (s : Str) : Str := pyStripChars s isPySpace

/-- Boolean prefix test (Python startswith). -/
def isPrefixB : Str → Str → Bool
  | [], _ => true
  | _ :: _, [] => false
  | a :: p, b :: s => a = b && isPrefixB p s

/-- Boolean suffix test (Python endswith). -/
def isSuffixB (p s : Str) : Bool := isPrefixB p.reverse s.reverse

/-- Index of the first occurrence of character c, if any. -/
def firstCharIdx (c : Char) : Str → Option Nat
  | [] => none
  | d :: rest => if d = c then some 0 else (firstCharIdx c rest).map (· + 1)

/-- Index of the first position at which sub occurs, if any. -/
def firstSubIdx (sub : Str) : Str → Option Nat
  | [] => if sub.isEmpty then some 0 else none
  | c :: rest =>
    if isPrefixB sub (c :: rest) then some 0
    else (firstSubIdx sub rest).map (· + 1)

/-- Python str.find(sub): first index of sub, or -1. -/
def pyFindSub (s sub : Str) : Int :=
  match firstSubIdx sub s with
  | some n => (n : Int)
  | none => -1

/-- Python str.find(c, start): first index of character c at or after
start, or -1.  A negative start counts from the end, clamped at 0. -/
def pyFindChar (s : Str) (c : Char) (start : Int) : Int :=
  let st : Nat := (if start < 0 then (s.length : Int) + start else start).toNat
  match firstCharIdx c (s.drop st) with
  | some i => ((st + i : Nat) : Int)
  | none => -1

/-- Python slice s[:i], where i may be negative (counted from the end). -/
def pySliceTo (s : Str) (i : Int) : Str :=
  s.take (if i < 0 then ((s.length : Int) + i).toNat else i.toNat)

/-- Python slice s[i:], where i may be negative (counted from the end). -/
def pySliceFrom (s : Str) (i : Int) : Str :=
  s.drop (if i < 0 then ((s.length : Int) + i).toNat else i.toNat)

/-- Python str.split(sep) for a one-character separator. -/
def pySplit (s : Str) (sep : Char) : List Str :=
  match s with
  | [] => [[]]
  | c :: rest =>
    let r := pySplit rest sep
    if c = sep then [] :: r
    else
      match r with
      | h :: t => (c :: h) :: t
      | [] => [[c]]

/-- Python str.replace(pat, rep), non-overlapping and left to right.  The
fuel argument is the length of the scanned string, which every call site
supplies, so the fuel never runs out; the script never calls replace with
an empty search string, and that case is a plain copy here. -/
def pyReplaceGo (pat rep : Str) : Nat → Str → Str
  | _, [] => []
  | 0, s => s
  | fuel + 1, c :: rest =>
    if isPrefixB pat (c :: rest) && !pat.isEmpty then
      rep ++ pyReplaceGo pat rep fuel ((c :: rest).drop pat.length)
    else
      c :: pyReplaceGo pat rep fuel rest

/-- Python str.replace(pat, rep). -/
def pyReplace (s pat rep : Str) : Str := pyReplaceGo pat rep s.length s

/-- Decimal digits of a string, as a natural number (Python int on a
string of ASCII digits). -/
def natOfDigits (s : Str) : Nat := s.foldl (fun n c => n * 10 + (c.toNat - 48)) 0

/-- Decimal rendering of a natural number (Python str on an int). -/
def natToStr (n : Nat) : Str := Nat.toDigits 10 n

/-!  The program model proper, following src/version_manager.py. -/

/-- Identity of a file touched by the script: the VERSION file, the
CHANGELOG.md file, or the i-th entry of the VERSIONED_FILES list. -/
inductive FileId where
  | version : FileId
  | changelog : FileId
  | aux : Nat → FileId
deriving DecidableEq

/-- The filesystem state the script acts on: content of the version file,
of the changelog file, and of each configured auxiliary file, where none
means the file does not exist. -/
structure FS where
  version : Option Str
  changelog : Option Str
  aux : List (Option Str)
deriving DecidableEq

/-- The table CHANGELOG_CATEGORIES of the script. -/
def CHANGELOG_CATEGORIES : List (Str × Str) :=
  [(lit "feature", lit "✨ Added"),
   (lit "fix", lit "🐞 Fixed"),
   (lit "refactor", lit "🔨 Refactor"),
   (lit "chore", lit "🧹 Chore"),
   (lit "docs", lit "📝 Docs")]

/-- ASCII lower-casing of one character (Python str.lower on the ASCII
fragment; category keys are ASCII). -/
def pyLowerChar (c : Char) : Char :=
  if 65 ≤ c.toNat && c.toNat ≤ 90 then Char.ofNat (c.toNat + 32) else c

/-- Python str.lower. -/
def pyLower (s : Str) : Str := s.map pyLowerChar

/-- Whether a version string is exactly three dot-separated nonempty runs
of decimal digits: the validation performed by get_current_version. -/
def wellformedB (v : Str) : Bool :=
  let parts := pySplit v (Char.ofNat 46)
  parts.length == 3 && parts.all (fun q => !q.isEmpty && q.all Char.isDigit)

/-- get_current_version of the script, as a function of the version-file
content (none when the file is missing).  Returns the version the call
yields together with the content of the version file after the call: a
missing file is first created with 0.0.0, and a malformed one is
overwritten with 0.0.0. -/
def get_current_version (file : Option Str) : Str × Str :=
  let content := match file with | none => lit "0.0.0" | some t => t
  let version := pyStrip content
  if wellformedB version then (version, content) else (lit "0.0.0", lit "0.0.0")

/-- bump_version of the script.  The current version always comes from
get_current_version and therefore has exactly three dot-separated numeric
parts; on any other shape Python would raise, modelled by the empty
string. -/
def bump_version (current kind : Str) : Str :=
  match pySplit current (Char.ofNat 46) with
  | [a, b, c] =>
    let major := natOfDigits a
    let minor := natOfDigits b
    let patch := natOfDigits c
    if kind = lit "major" then
      natToStr (major + 1) ++ lit ".0.0"
    else if kind = lit "minor" then
      natToStr major ++ lit "." ++ natToStr (minor + 1) ++ lit ".0"
    else
      natToStr major ++ lit "." ++ natToStr minor ++ lit "." ++ natToStr (patch + 1)
  | _ => []

/-- build_changelog_entry of the script.  The current date is a parameter
(the script takes it from the clock, formatted YYYY-MM-DD). -/
def build_changelog_entry (newVersion message category date : Str) : Str :=
  let header :=
    match CHANGELOG_CATEGORIES.find? (fun q => decide (q.1 = pyLower category)) with
    | some q => q.2
    | none => lit "✨ Added"
  let entryContent :=
    if nlc ∈ message then pyStrip message else lit "- " ++ pyStrip message
  lit "## [" ++ newVersion ++ lit "] - " ++ date ++ lit "\n### " ++ header ++
    lit "\n" ++ entryContent ++ lit "\n\n"

/-- The replacement template of update_version_in_files: the raw string
of group reference g 0, with occurrences of the old version replaced by
the new one (the comment in the source says: preserve quotes/spacing). -/
def groupRef : Str := lit "\\g<0>"

/-- Match, at the head of s, one assignment of the recognized shape:
the key, optional whitespace, an equals sign, optional whitespace, a
quote, the old version literally, a quote.  Returns the rest of s after
the match.  This is the meaning of one alternative of the regular
expression of update_version_in_files. -/
def matchAssign (key oldV s : Str) : Option Str := do
  let s1 ← if isPrefixB key s then some (s.drop key.length) else none
  let s2 := s1.dropWhile isPySpace
  let s3 ← match s2 with
           | c :: rest => if c = Char.ofNat 61 then some rest else none
           | [] => none
  let s4 := s3.dropWhile isPySpace
  let s5 ← match s4 with
           | c :: rest => if c = dq || c = sqc then some rest else none
           | [] => none
  let s6 ← if isPrefixB oldV s5 then some (s5.drop oldV.length) else none
  match s6 with
  | c :: rest => if c = dq || c = sqc then some rest else none
  | [] => none

/-- The full version-assignment regular expression: the alternative with
key version, else the alternative with key double-underscore version
double-underscore, exactly as the alternation tries them. -/
def matchVersionAssign (oldV s : Str) : Option Str :=
  match matchAssign (lit "version") oldV s with
  | some r => some r
  | none => matchAssign (lit "__version__") oldV s

/-- re.subn on the version-assignment expression: scan left to right,
replace each non-overlapping match by the expansion of the replacement
template (group reference g 0 expands to the matched text), and count the
matches.  Fuel is the length of the scanned string; every match consumes
at least the key, so with that fuel the exhaustion branch is never
reached. -/
def subnGo (oldV repl : Str) : Nat → Str → Str × Nat
  | _, [] => ([], 0)
  | 0, s => (s, 0)
  | fuel + 1, c :: rest =>
    match matchVersionAssign oldV (c :: rest) with
    | some r =>
      let matched := (c :: rest).take ((c :: rest).length - r.length)
      let t := subnGo oldV repl fuel r
      (pyReplace repl groupRef matched ++ t.1, t.2 + 1)
    | none =>
      let t := subnGo oldV repl fuel rest
      (c :: t.1, t.2)

/-- re.subn of update_version_in_files applied to one file content. -/
def reSubnVersion (oldV repl content : Str) : Str × Nat :=
  subnGo oldV repl content.length content

/-- One pass of update_version_in_files over the configured files,
index-aware: a missing file is skipped; a file with at least one match is
rewritten with the substitution result and recorded (apply mode), or left
alone (dry-run mode). -/
def uvifGo (oldV repl : Str) (dry : Bool) : Nat → List (Option Str) →
    List (Option Str) × List Nat
  | _, [] => ([], [])
  | i, f :: rest =>
    let t := uvifGo oldV repl dry (i + 1) rest
    match f with
    | none => (none :: t.1, t.2)
    | some content =>
      let r := reSubnVersion oldV repl content
      if 0 < r.2 then
        if dry then (some content :: t.1, t.2)
        else (some r.1 :: t.1, i :: t.2)
      else (some content :: t.1, t.2)

/-- update_version_in_files of the script: builds the expression and the
replacement template from the old and new versions, processes each
configured file, and returns the new file contents together with the
indices of the files actually rewritten (apply mode only). -/
def update_version_in_files (oldV newV : Str) (dry : Bool)
    (aux : List (Option Str)) : List (Option Str) × List Nat :=
  uvifGo oldV (pyReplace groupRef oldV newV) dry 0 aux

/-- The top heading of the changelog document. -/
def changelogHeading : Str := lit "# Changelog"

/-- The content update_files works on before splicing: the changelog file
content stripped, or a fresh minimal document when the file is missing,
with the top heading prepended when absent. -/
def normalizeDoc (existing : Option Str) : Str :=
  let content :=
    match existing with
    | some t => pyStrip t
    | none => changelogHeading ++ lit "\n\n"
  if isPrefixB changelogHeading content then content
  else changelogHeading ++ lit "\n\n" ++ content

/-- The changelog splice of update_files: locate the first line break
after the top heading and splice the entry right after it, then write the
stripped result with one trailing line break.  The source wraps this in a
try block whose fallback appends at the end, but no expression inside can
raise (str.find returns -1 rather than raising, and slicing accepts
negative indices), so the fallback is dead code and the -1 case flows
into the slices. -/
def update_changelog (existing : Option Str) (entry : Str) : Str :=
  let content := normalizeDoc existing
  let insertIndex :=
    pyFindChar content nlc
      (pyFindSub content changelogHeading + (changelogHeading.length : Int))
  let newContent :=
    pySliceTo content insertIndex ++ lit "\n" ++ entry ++
      pyStrip (pySliceFrom content insertIndex)
  pyStrip newContent ++ lit "\n"

/-- Result of update_files: the filesystem afterwards, the files to hand
to git add (empty in dry-run mode, where the source returns None), and
the old-version argument that was passed to update_version_in_files. -/
structure UFOut where
  fs : FS
  files : List FileId
  oldArg : Str
deriving DecidableEq

/-- update_files of the script.  In dry-run mode nothing is written; the
secondary-file update still runs, in dry-run mode, with the old version
re-read from the version store.  In apply mode the version file is
written first, then the changelog is spliced and written, then the
secondary files are patched with the old version re-read from the version
store at that point, and the touched files are accumulated. -/
def update_files (newVersion message category date : Str) (dry : Bool)
    (fs : FS) : UFOut :=
  let entry := build_changelog_entry newVersion message category date
  if dry then
    let r := get_current_version fs.version
    let fs1 : FS := { fs with version := some r.2 }
    let p := update_version_in_files r.1 newVersion true fs1.aux
    ⟨{ fs1 with aux := p.1 }, [], r.1⟩
  else
    let fs1 : FS := { fs with version := some (pyStrip newVersion) }
    let newChangelog := update_changelog fs1.changelog entry
    let fs2 : FS := { fs1 with changelog := some newChangelog }
    let r := get_current_version fs2.version
    let fs3 : FS := { fs2 with version := some r.2 }
    let p := update_version_in_files r.1 newVersion false fs3.aux
    ⟨{ fs3 with aux := p.1 },
     [FileId.version, FileId.changelog] ++ p.2.map FileId.aux, r.1⟩

/-- An external git command the script attempts to run. -/
inductive GitCmd where
  | status : GitCmd
  | add : List FileId → GitCmd
  | commit : GitCmd
  | tag : GitCmd
  | push : GitCmd
  | pushTags : GitCmd
deriving DecidableEq

/-- The state of the git environment for the status query: the binary is
missing (FileNotFoundError), the status command fails (not a repository,
CalledProcessError), or it succeeds with the given porcelain output. -/
inductive GitEnv where
  | missing : GitEnv
  | failing : GitEnv
  | status : Str → GitEnv
deriving DecidableEq

/-- Which of the five git steps of git_commit_and_tag succeed. -/
structure GitSteps where
  addOk : Bool
  commitOk : Bool
  tagOk : Bool
  pushOk : Bool
  pushTagsOk : Bool
deriving DecidableEq

/-- git_commit_and_tag of the script: in dry-run mode nothing runs; in
apply mode the steps run in order, each failing step is still attempted,
and the first failure raises CalledProcessError which the function
catches and reports, stopping the sequence without exiting.  The value is
the list of commands attempted. -/
def git_commit_and_tag (steps : GitSteps) (files : List FileId)
    (dry : Bool) : List GitCmd :=
  if dry then []
  else
    GitCmd.add files ::
      (if steps.addOk then
        GitCmd.commit ::
          (if steps.commitOk then
            GitCmd.tag ::
              (if steps.tagOk then
                GitCmd.push ::
                  (if steps.pushOk then [GitCmd.pushTags] else [])
              else [])
          else [])
      else [])

/-- Message normalization of main: when the raw message both starts and
ends with a triple-quote marker (of either kind), strip whitespace and
then all leading and trailing double quotes and then all leading and
trailing single quotes; otherwise strip all leading and trailing double
quotes and then all leading and trailing single quotes. -/
def normalizeMessage (raw : Str) : Str :=
  let tD : Str := List.replicate 3 dq
  let tS : Str := List.replicate 3 sqc
  if (isPrefixB tD raw || isPrefixB tS raw) &&
      (isSuffixB tD raw || isSuffixB tS raw) then
    pyStripChars (pyStripChars (pyStrip raw) (fun c => c = dq)) (fun c => c = sqc)
  else
    pyStripChars (pyStripChars raw (fun c => c = dq)) (fun c => c = sqc)

/-- Outcome of one run of main: the process exit code (0 on normal
termination, 1 on sys.exit(1)), the filesystem afterwards, and the git
commands attempted. -/
structure RunOut where
  code : Nat
  fs : FS
  trace : List GitCmd
deriving DecidableEq

/-- The part of main after the working-tree check: normalize the message
and exit 1 when it strips to nothing; read (and possibly self-heal) the
version store; bump; then either preview (dry run) or write files and run
the git sequence. -/
def mainRest (raw kind category : Str) (dryRun : Bool) (steps : GitSteps)
    (date : Str) (fs : FS) (tr : List GitCmd) : RunOut :=
  let message := normalizeMessage raw
  if pyStrip message = [] then ⟨1, fs, tr⟩
  else
    let r := get_current_version fs.version
    let fs1 : FS := { fs with version := some r.2 }
    let newVersion := bump_version r.1 kind
    if dryRun then
      ⟨0, (update_files newVersion message category date true fs1).fs, tr⟩
    else
      let u := update_files newVersion message category date false fs1
      ⟨0, u.fs, tr ++ git_commit_and_tag steps u.files false⟩

/-- main of the script, over raw message, bump kind, category, the
dry-run flag, the git environment, and the filesystem.  In apply mode the
working tree is queried first: a missing binary or failing status query
exits 1, a dirty tree exits 1, all before any file is touched.  In
dry-run mode the status query is skipped entirely. -/
def mainRun (raw kind category : Str) (dryRun : Bool) (genv : GitEnv)
    (steps : GitSteps) (date : Str) (fs : FS) : RunOut :=
  if dryRun then mainRest raw kind category true steps date fs []
  else
    match genv with
    | GitEnv.missing => ⟨1, fs, [GitCmd.status]⟩
    | GitEnv.failing => ⟨1, fs, [GitCmd.status]⟩
    | GitEnv.status out =>
      if pyStrip out = [] then
        mainRest raw kind category false steps date fs [GitCmd.status]
      else ⟨1, fs, [GitCmd.status]⟩


/-- All suffixes of s standing right after an occurrence of pat. -/
def occSuffixes (pat s : Str) : List Str :=
  (List.range (s.length + 1)).filterMap (fun i =>
    if isPrefixB pat (s.drop i) then some (s.drop (i + pat.length)) else none)

/-- Whether pat occurs in s as a contiguous substring. -/
def isSubstrB (pat s : Str) : Bool := !(occSuffixes pat s).isEmpty

/-- The containment property claim C6 asserts of the result of two
insertions: the result contains the second entry, then the first entry
after it, and then the trimmed original document content below both. -/
def c6ClaimCheck (d e1 e2 result : Str) : Bool :=
  (occSuffixes e2 result).any (fun s1 =>
    (occSuffixes e1 s1).any (fun s2 => isSubstrB (pyStrip d) s2))

/-- Modelled from the spec: the Release Orchestrator is specified to
strip a single layer of surrounding quote markers (single, double, or
triple) from the supplied message.  This definition follows the words of
the specification, for comparison with normalizeMessage, which is the
translation of the source. -/
def stripOneLayerSpec (raw : Str) : Str :=
  if isPrefixB (List.replicate 3 dq) raw ∧ isSuffixB (List.replicate 3 dq) raw ∧
      6 ≤ raw.length then
    (raw.drop 3).take (raw.length - 6)
  else if isPrefixB (List.replicate 3 sqc) raw ∧ isSuffixB (List.replicate 3 sqc) raw ∧
      6 ≤ raw.length then
    (raw.drop 3).take (raw.length - 6)
  else if isPrefixB [dq] raw ∧ isSuffixB [dq] raw ∧ 2 ≤ raw.length then
    (raw.drop 1).take (raw.length - 2)
  else if isPrefixB [sqc] raw ∧ isSuffixB [sqc] raw ∧ 2 ≤ raw.length then
    (raw.drop 1).take (raw.length - 2)
  else raw

/-!  Helper lemmas about the string primitives. -/

theorem rstripC_eq_rdropWhile (p : Char → Bool) (s : Str) :
    rstripC p s = List.rdropWhile p s := rfl

theorem rstripC_append_keep {p : Char → Bool} (a : Str) {b : Str}
    (h : rstripC p b ≠ []) : rstripC p (a ++ b) = a ++ rstripC p b := by
  have hb : b.reverse.dropWhile p ≠ [] := by
    intro he
    apply h
    unfold rstripC
    rw [he, List.reverse_nil]
  unfold rstripC
  rw [List.reverse_append, List.dropWhile_append,
    if_neg (by simpa [List.isEmpty_iff] using hb),
    List.reverse_append, List.reverse_reverse]

theorem rstripC_append_drop {p : Char → Bool} (a : Str) {b : Str}
    (h : ∀ x ∈ b, p x = true) : rstripC p (a ++ b) = rstripC p a := by
  unfold rstripC
  rw [List.reverse_append,
    List.dropWhile_append_of_pos (fun x hx => h x (List.mem_reverse.mp hx))]

theorem rstripC_idem (p : Char → Bool) (s : Str) :
    rstripC p (rstripC p s) = rstripC p s := by
  rw [rstripC_eq_rdropWhile, rstripC_eq_rdropWhile]
  exact List.rdropWhile_idempotent p s

theorem rstripC_eq_nil_iff {p : Char → Bool} {s : Str} :
    rstripC p s = [] ↔ ∀ x ∈ s, p x := by
  rw [rstripC_eq_rdropWhile]
  exact List.rdropWhile_eq_nil_iff

theorem rstripC_decomp (p : Char → Bool) (s : Str) :
    ∃ w, s = rstripC p s ++ w ∧ ∀ x ∈ w, p x := by
  refine ⟨(s.reverse.takeWhile p).reverse, ?_, ?_⟩
  · calc s = s.reverse.reverse := (List.reverse_reverse s).symm
    _ = (s.reverse.takeWhile p ++ s.reverse.dropWhile p).reverse := by
        rw [List.takeWhile_append_dropWhile]
    _ = (s.reverse.dropWhile p).reverse ++ (s.reverse.takeWhile p).reverse := by
        rw [List.reverse_append]
    _ = rstripC p s ++ (s.reverse.takeWhile p).reverse := rfl
  · intro x hx
    exact List.mem_takeWhile_imp (List.mem_reverse.mp hx)

theorem lstripC_cons_of_neg {p : Char → Bool} {c : Char} (s : Str) (h : p c = false) :
    lstripC p (c :: s) = c :: s := by
  unfold lstripC
  exact List.dropWhile_cons_of_neg (by simp [h])

theorem lstripC_head_false {p : Char → Bool} {s : Str} {c : Char} {t : Str}
    (h : lstripC p s = c :: t) : p c = false := by
  have hh := List.head?_dropWhile_not p s
  unfold lstripC at h
  rw [h] at hh
  simpa using hh

theorem stripChars_decomp (s : Str) (p : Char → Bool) :
    ∃ a b, s = a ++ pyStripChars s p ++ b := by
  obtain ⟨w, hw, _⟩ := rstripC_decomp p (lstripC p s)
  refine ⟨s.takeWhile p, w, ?_⟩
  calc s = s.takeWhile p ++ s.dropWhile p := (List.takeWhile_append_dropWhile p s).symm
  _ = s.takeWhile p ++ (pyStripChars s p ++ w) := by
      rw [show s.dropWhile p = lstripC p s from rfl, hw]; rfl
  _ = s.takeWhile p ++ pyStripChars s p ++ w := by rw [List.append_assoc]

theorem stripChars_head_false {s : Str} {p : Char → Bool} {c : Char} {t : Str}
    (h : pyStripChars s p = c :: t) : p c = false := by
  obtain ⟨w, hw, _⟩ := rstripC_decomp p (lstripC p s)
  unfold pyStripChars at h
  rw [h] at hw
  exact lstripC_head_false (show lstripC p s = c :: (t ++ w) by rw [hw]; rfl)

theorem stripChars_idem (s : Str) (p : Char → Bool) :
    pyStripChars (pyStripChars s p) p = pyStripChars s p := by
  cases h : pyStripChars s p with
  | nil => rfl
  | cons c t =>
    have hc : p c = false := stripChars_head_false h
    unfold pyStripChars
    rw [lstripC_cons_of_neg t hc]
    rw [← h]
    exact rstripC_idem p (lstripC p s)

theorem pyStrip_idem (s : Str) : pyStrip (pyStrip s) = pyStrip s :=
  stripChars_idem s isPySpace

theorem isPrefixB_eq (p s : Str) (h : isPrefixB p s = true) : ∃ t, s = p ++ t := by
  induction p generalizing s with
  | nil => exact ⟨s, rfl⟩
  | cons a q ih =>
    cases s with
    | nil => simp [isPrefixB] at h
    | cons b r =>
      unfold isPrefixB at h
      rw [Bool.and_eq_true] at h
      obtain ⟨h1, h2⟩ := h
      obtain ⟨t, ht⟩ := ih r h2
      refine ⟨t, ?_⟩
      rw [ht, of_decide_eq_true h1]
      rfl

theorem isPrefixB_of_append (p t : Str) : isPrefixB p (p ++ t) = true := by
  induction p with
  | nil => rfl
  | cons a q ih => simp [isPrefixB, ih]

theorem isPrefixB_extend {p s : Str} (t : Str) (h : isPrefixB p s = true) :
    isPrefixB p (s ++ t) = true := by
  obtain ⟨u, hu⟩ := isPrefixB_eq p s h
  rw [hu, List.append_assoc]
  exact isPrefixB_of_append p (u ++ t)

theorem isPrefixB_length_le {p s : Str} (h : isPrefixB p s = true) :
    p.length ≤ s.length := by
  obtain ⟨u, hu⟩ := isPrefixB_eq p s h
  rw [hu]
  simp

theorem firstSubIdx_zero {sub s : Str} (h : isPrefixB sub s = true) :
    firstSubIdx sub s = some 0 := by
  cases s with
  | nil =>
    cases sub with
    | nil => rfl
    | cons a q => simp [isPrefixB] at h
  | cons c r => simp [firstSubIdx, h]

theorem pyFindSub_zero {sub s : Str} (h : isPrefixB sub s = true) :
    pyFindSub s sub = 0 := by
  unfold pyFindSub
  rw [firstSubIdx_zero h]
  rfl

theorem firstCharIdx_append {c : Char} {a : Str} (r : Str)
    (h : ∀ x ∈ a, x ≠ c) : firstCharIdx c (a ++ c :: r) = some a.length := by
  induction a with
  | nil => simp [firstCharIdx]
  | cons d t ih =>
    have hd : d ≠ c := h d (by simp)
    simp only [List.cons_append, firstCharIdx, if_neg hd, List.append_eq]
    rw [ih (fun x hx => h x (by simp [hx]))]
    rfl

theorem takeAppendLe (r : Str) : ∀ (l : Str) (n : Nat), n ≤ l.length →
    (l ++ r).take n = l.take n := by
  intro l
  induction l with
  | nil =>
    intro n hn
    have h0 : n = 0 := Nat.le_zero.mp (by simpa using hn)
    subst h0
    rfl
  | cons c t ih =>
    intro n hn
    cases n with
    | zero => rfl
    | succ m =>
      simp only [List.cons_append, List.take_succ_cons]
      rw [ih m (by simpa using hn)]

theorem dropAppendLe (r : Str) : ∀ (l : Str) (n : Nat), n ≤ l.length →
    (l ++ r).drop n = l.drop n ++ r := by
  intro l
  induction l with
  | nil =>
    intro n hn
    have h0 : n = 0 := Nat.le_zero.mp (by simpa using hn)
    subst h0
    rfl
  | cons c t ih =>
    intro n hn
    cases n with
    | zero => rfl
    | succ m =>
      simp only [List.cons_append, List.drop_succ_cons]
      exact ih m (by simpa using hn)

theorem uvifGo_dry (oldV repl : Str) (aux : List (Option Str)) :
    ∀ i : Nat, uvifGo oldV repl true i aux = (aux, []) := by
  induction aux with
  | nil => intro i; rfl
  | cons f rest ih =>
    intro i
    unfold uvifGo
    rw [ih (i + 1)]
    cases f with
    | none => rfl
    | some content =>
      by_cases h : 0 < (reSubnVersion oldV repl content).2 <;> simp [h]

theorem pyStrip_cons_space {c : Char} (h : isPySpace c = true) (R : Str) :
    pyStrip (c :: R) = pyStrip R := by
  unfold pyStrip pyStripChars lstripC
  rw [List.dropWhile_cons_of_pos h]

theorem pyStrip_cons_nonspace {c : Char} (h : isPySpace c = false) (s : Str) :
    pyStrip (c :: s) = rstripC isPySpace (c :: s) := by
  unfold pyStrip pyStripChars
  rw [lstripC_cons_of_neg s h]

theorem rstripC_ne_nil_of_mem {p : Char → Bool} {s : Str} {c : Char}
    (hc : c ∈ s) (hp : p c = false) : rstripC p s ≠ [] := by
  intro h
  have := rstripC_eq_nil_iff.mp h c hc
  rw [hp] at this
  cases this

/-- Exact shape of one changelog splice when the normalized document has a
line break after its heading line: the entry lands right after the heading
line, before the stripped remainder, and the whole is stripped and given
one trailing line break.  Here L is the heading line (no line break in it,
the top heading is its prefix) and R the rest of the normalized document;
the entry starts with two number signs, as every rendered entry does. -/
theorem update_changelog_good {ex : Option Str} {L R e : Str}
    (hnorm : normalizeDoc ex = (L ++ [nlc]) ++ R)
    (hLpre : isPrefixB changelogHeading L = true)
    (hLnl : ∀ x ∈ L, x ≠ nlc)
    (he : isPrefixB (lit "##") e = true) :
    update_changelog ex e =
      (L ++ [nlc]) ++ (rstripC isPySpace (e ++ pyStrip R) ++ [nlc]) := by
  obtain ⟨L1, hL1⟩ := isPrefixB_eq _ _ hLpre
  obtain ⟨e1, he1⟩ := isPrefixB_eq _ _ he
  have hL11 : 11 ≤ L.length := isPrefixB_length_le hLpre
  have hpre2 : isPrefixB changelogHeading ((L ++ [nlc]) ++ R) = true :=
    isPrefixB_extend R (isPrefixB_extend [nlc] hLpre)
  have hfind : pyFindChar ((L ++ [nlc]) ++ R) nlc
      (pyFindSub ((L ++ [nlc]) ++ R) changelogHeading +
        (changelogHeading.length : Int)) = (L.length : Int) := by
    rw [pyFindSub_zero hpre2]
    have harg : (0 : Int) + (changelogHeading.length : Int) = (11 : Int) := rfl
    rw [harg]
    have hdrop : ((L ++ [nlc]) ++ R).drop 11 = L.drop 11 ++ nlc :: R := by
      rw [List.append_assoc]
      rw [dropAppendLe ([nlc] ++ R) L 11 hL11]
      rfl
    have hlt : ¬ ((11 : Int) < 0) := by norm_num
    simp only [pyFindChar, if_neg hlt]
    have htn : (11 : Int).toNat = 11 := rfl
    rw [htn, hdrop,
      firstCharIdx_append R (fun x hx => hLnl x (List.drop_subset 11 L hx))]
    have hlen : 11 + (L.drop 11).length = L.length := by
      rw [List.length_drop]
      omega
    show (((11 + (List.drop 11 L).length : Nat)) : Int) = (L.length : Int)
    rw [hlen]
  have hto : pySliceTo ((L ++ [nlc]) ++ R) (L.length : Int) = L := by
    have hlt : ¬ ((L.length : Int) < 0) := by omega
    simp only [pySliceTo, if_neg hlt, Int.toNat_ofNat, List.append_assoc,
      List.take_left]
  have hfrom : pySliceFrom ((L ++ [nlc]) ++ R) (L.length : Int) = nlc :: R := by
    have hlt : ¬ ((L.length : Int) < 0) := by omega
    simp only [pySliceFrom, if_neg hlt, Int.toNat_ofNat, List.append_assoc,
      List.drop_left]
    rfl
  simp only [update_changelog, hnorm, hfind, hto, hfrom,
    pyStrip_cons_space (show isPySpace nlc = true by decide) R]
  have hsplit : L ++ lit "\n" ++ (e ++ pyStrip R) =
      Char.ofNat 35 :: ((lit " Changelog" ++ L1 ++ [nlc]) ++ (e ++ pyStrip R)) := by
    rw [hL1]
    simp [changelogHeading, List.append_assoc]
    rfl
  rw [show L ++ lit "\n" ++ e ++ pyStrip R = L ++ lit "\n" ++ (e ++ pyStrip R) by
    simp [List.append_assoc]]
  rw [hsplit, pyStrip_cons_nonspace (show isPySpace (Char.ofNat 35) = false by decide)]
  have hback : Char.ofNat 35 :: ((lit " Changelog" ++ L1 ++ [nlc]) ++ (e ++ pyStrip R)) =
      (L ++ [nlc]) ++ (e ++ pyStrip R) := by
    rw [hL1]
    simp [changelogHeading, List.append_assoc]
    rfl
  rw [hback]
  have hne : rstripC isPySpace (e ++ pyStrip R) ≠ [] := by
    apply rstripC_ne_nil_of_mem (c := Char.ofNat 35)
    · rw [he1]
      simp [lit]
    · decide
  rw [rstripC_append_keep (L ++ [nlc]) hne]
  simp only [List.append_assoc]
  rfl

theorem pyStrip_eq_rstripC_headChar {s p0 : Str} {c : Char}
    (hp : isPrefixB (c :: p0) s = true) (hc : isPySpace c = false) :
    pyStrip s = rstripC isPySpace s := by
  obtain ⟨t, ht⟩ := isPrefixB_eq _ _ hp
  rw [ht, List.cons_append]
  exact pyStrip_cons_nonspace hc _

theorem all_space_nl : ∀ x ∈ [nlc], isPySpace x = true := by
  intro x hx
  simp only [List.mem_singleton] at hx
  subst hx
  decide

/-- Claim C6 (amended): on every starting document whose normalized form
has a line break after its heading line, splicing two rendered entries in
sequence yields exactly the heading line, the second entry, the first
entry followed by the stripped remainder of the original document (with
trailing whitespace collapsed), and one final line break: both entries
are present, the more recently inserted one nearer the top, and the
original content sits below them. -/
theorem c6_insert_twice (d e1 e2 L R : Str)
    (hnorm : normalizeDoc (some d) = (L ++ [nlc]) ++ R)
    (hLpre : isPrefixB changelogHeading L = true)
    (hLnl : ∀ x ∈ L, x ≠ nlc)
    (he1 : isPrefixB (lit "##") e1 = true)
    (he2 : isPrefixB (lit "##") e2 = true) :
    update_changelog (some (update_changelog (some d) e1)) e2 =
      (L ++ [nlc]) ++ (e2 ++ (rstripC isPySpace (e1 ++ pyStrip R) ++ [nlc])) := by
  obtain ⟨e1t, he1t⟩ := isPrefixB_eq _ _ he1
  have hr1 : update_changelog (some d) e1 =
      (L ++ [nlc]) ++ (rstripC isPySpace (e1 ++ pyStrip R) ++ [nlc]) :=
    update_changelog_good hnorm hLpre hLnl he1
  set S := rstripC isPySpace (e1 ++ pyStrip R) with hS
  have hhash : Char.ofNat 35 ∈ e1 ++ pyStrip R := by
    rw [he1t]
    simp [lit]
  have hSne : S ≠ [] := rstripC_ne_nil_of_mem hhash (by decide)
  have hSr : rstripC isPySpace S = S := by
    rw [hS]
    exact rstripC_idem isPySpace (e1 ++ pyStrip R)
  obtain ⟨S1, hS1⟩ : ∃ S1, S = Char.ofNat 35 :: S1 := by
    obtain ⟨w, hw, _⟩ := rstripC_decomp isPySpace (e1 ++ pyStrip R)
    rw [← hS] at hw
    cases hSc : S with
    | nil => exact absurd hSc hSne
    | cons c t =>
      rw [hSc, he1t,
        show lit "##" = Char.ofNat 35 :: Char.ofNat 35 :: [] from rfl] at hw
      simp only [List.cons_append, List.nil_append, List.append_assoc] at hw
      injection hw with hc hrest
      exact ⟨t, by rw [← hc]⟩
  have hpreS : isPrefixB changelogHeading (update_changelog (some d) e1) = true := by
    rw [hr1]
    exact isPrefixB_extend _ (isPrefixB_extend _ hLpre)
  have hin : rstripC isPySpace (S ++ [nlc]) = S := by
    rw [rstripC_append_drop S all_space_nl, hSr]
  have hstrip1 : pyStrip (update_changelog (some d) e1) = (L ++ [nlc]) ++ S := by
    have hcons : isPrefixB (Char.ofNat 35 :: lit " Changelog")
        (update_changelog (some d) e1) = true := hpreS
    rw [pyStrip_eq_rstripC_headChar hcons (by decide), hr1,
      rstripC_append_keep (L ++ [nlc]) (by rw [hin]; exact hSne), hin]
  have hnorm2 : normalizeDoc (some (update_changelog (some d) e1)) =
      (L ++ [nlc]) ++ S := by
    have hpre3 : isPrefixB changelogHeading ((L ++ [nlc]) ++ S) = true :=
      isPrefixB_extend _ (isPrefixB_extend _ hLpre)
    simp only [normalizeDoc, hstrip1, hpre3, if_true]
  have hstripS : pyStrip S = S := by
    have hconsS : isPrefixB (Char.ofNat 35 :: ([] : Str)) S = true := by
      rw [hS1]
      simp [isPrefixB]
    rw [pyStrip_eq_rstripC_headChar hconsS (by decide), hSr]
  have hmain : update_changelog (some (update_changelog (some d) e1)) e2 =
      (L ++ [nlc]) ++ (rstripC isPySpace (e2 ++ pyStrip S) ++ [nlc]) :=
    update_changelog_good hnorm2 hLpre hLnl he2
  rw [hmain, hstripS, rstripC_append_keep e2 (by rw [hSr]; exact hSne), hSr]
  simp [List.append_assoc]

/-!  Claim theorems. -/

/-- Claim C1: the claim says the File Patcher in apply mode rewrites the
numeric version token to the new version, so that a file containing the
old assignment afterwards contains the new one.  The code does not: the
replacement template is the raw group-0 reference with occurrences of the
old version replaced by the new one, but a dotted version never occurs in
that five-character template, so each match is replaced by itself.  At
the documented scenario (bump 1.2.3 to 2.0.0) the file content is
written back byte-identical, with one match counted and the file still
reported as updated. -/
theorem c1_patcher_rewrites_nothing :
    update_version_in_files (lit "1.2.3") (lit "2.0.0") false
        [some (lit "version = \"1.2.3\"")] =
      ([some (lit "version = \"1.2.3\"")], [0]) ∧
    reSubnVersion (lit "1.2.3") (pyReplace groupRef (lit "1.2.3") (lit "2.0.0"))
        (lit "version = \"1.2.3\"") = (lit "version = \"1.2.3\"", 1) ∧
    update_version_in_files (lit "1.2.3") (lit "2.0.0") false
        [some (lit "version = \"1.2.3\"")] ≠
      ([some (lit "version = \"2.0.0\"")], [0]) :=
  ⟨by decide, by decide, by decide⟩

/-- Claim C5: the claim says inserting a rendered entry into a document
consisting only of the top heading yields the heading exactly once with
the entry as the second block.  The code does not: on such a document the
stripped content has no line break after the heading, str.find returns
-1, and the -1 flows into the slices, cutting the final g off the heading
and gluing it after the entry.  The fallback the claim describes is dead
code, since nothing in the splice raises. -/
theorem c5_heading_only_mangled :
    update_changelog (some (lit "# Changelog\n"))
        (build_changelog_entry (lit "0.1.0") (lit "Add login flow")
          (lit "feature") (lit "2025-01-01")) =
      lit "# Changelo\n## [0.1.0] - 2025-01-01\n### ✨ Added\n- Add login flow\n\ng\n" ∧
    isPrefixB changelogHeading
      (update_changelog (some (lit "# Changelog\n"))
        (build_changelog_entry (lit "0.1.0") (lit "Add login flow")
          (lit "feature") (lit "2025-01-01"))) = false :=
  ⟨by decide, by decide⟩

/-- Claim C6 counterexample: on the starting document consisting only of
the top heading, inserting two rendered entries yields a result that does
contain both entries with the more recent nearer the top, but the
original document content is not intact below them: the heading was
mangled by the first insertion, so the containment property the claim
asserts is false at this input. -/
theorem c6_counterexample :
    c6ClaimCheck (lit "# Changelog")
      (lit "## [0.1.0] - 2025-01-01\n### ✨ Added\n- first\n\n")
      (lit "## [0.2.0] - 2025-01-01\n### ✨ Added\n- second\n\n")
      (update_changelog
        (some (update_changelog (some (lit "# Changelog"))
          (lit "## [0.1.0] - 2025-01-01\n### ✨ Added\n- first\n\n")))
        (lit "## [0.2.0] - 2025-01-01\n### ✨ Added\n- second\n\n")) = false ∧
    (occSuffixes (lit "## [0.2.0] - 2025-01-01\n### ✨ Added\n- second\n\n")
      (update_changelog
        (some (update_changelog (some (lit "# Changelog"))
          (lit "## [0.1.0] - 2025-01-01\n### ✨ Added\n- first\n\n")))
        (lit "## [0.2.0] - 2025-01-01\n### ✨ Added\n- second\n\n"))).any
      (fun s1 => isSubstrB (lit "## [0.1.0] - 2025-01-01\n### ✨ Added\n- first\n\n") s1)
      = true :=
  ⟨by decide, by decide⟩

/-- Claim C6 witness: the amended statement applied at a concrete
document with content below the heading and two concrete rendered
entries, all hypotheses discharged by evaluation. -/
theorem c6_insert_twice_witness :
    normalizeDoc (some (lit "# Changelog\n\nold stuff")) =
      ((lit "# Changelog") ++ [nlc]) ++ lit "\nold stuff" ∧
    isPrefixB changelogHeading (lit "# Changelog") = true ∧
    (∀ x ∈ lit "# Changelog", x ≠ nlc) ∧
    isPrefixB (lit "##") (lit "## [0.1.0] - 2025-01-01\n### ✨ Added\n- first\n\n") = true ∧
    isPrefixB (lit "##") (lit "## [0.2.0] - 2025-01-01\n### ✨ Added\n- second\n\n") = true ∧
    update_changelog
        (some (update_changelog (some (lit "# Changelog\n\nold stuff"))
          (lit "## [0.1.0] - 2025-01-01\n### ✨ Added\n- first\n\n")))
        (lit "## [0.2.0] - 2025-01-01\n### ✨ Added\n- second\n\n") =
      ((lit "# Changelog") ++ [nlc]) ++
        ((lit "## [0.2.0] - 2025-01-01\n### ✨ Added\n- second\n\n") ++
          (rstripC isPySpace
            ((lit "## [0.1.0] - 2025-01-01\n### ✨ Added\n- first\n\n") ++
              pyStrip (lit "\nold stuff")) ++ [nlc])) :=
  ⟨by decide, by decide, by decide, by decide, by decide,
   c6_insert_twice (lit "# Changelog\n\nold stuff")
     (lit "## [0.1.0] - 2025-01-01\n### ✨ Added\n- first\n\n")
     (lit "## [0.2.0] - 2025-01-01\n### ✨ Added\n- second\n\n")
     (lit "# Changelog") (lit "\nold stuff")
     (by decide) (by decide) (by decide) (by decide) (by decide)⟩

/-- Claim C7: the version-store read never fails: when the file is
missing, or present but not three dot-separated runs of digits, the call
returns 0.0.0 and leaves the file containing 0.0.0, and in every case the
value returned is a well-formed three-part version. -/
theorem c7_read_selfheals (file : Option Str)
    (h : file = none ∨ ∃ t, file = some t ∧ wellformedB (pyStrip t) = false) :
    get_current_version file = (lit "0.0.0", lit "0.0.0") ∧
    ∀ g : Option Str, wellformedB (get_current_version g).1 = true := by
  constructor
  · rcases h with h | ⟨t, ht, hw⟩
    · subst h
      decide
    · subst ht
      simp only [get_current_version]
      rw [if_neg (by simp [hw])]
  · intro g
    cases g with
    | none => decide
    | some t =>
      simp only [get_current_version]
      split
      · next hcond => exact hcond
      · decide

/-- Claim C7 witness: the theorem applied to a malformed on-disk version
file. -/
theorem c7_read_selfheals_witness :
    ((some (lit "banana") : Option Str) = none ∨
      ∃ t, (some (lit "banana") : Option Str) = some t ∧
        wellformedB (pyStrip t) = false) ∧
    (get_current_version (some (lit "banana")) = (lit "0.0.0", lit "0.0.0") ∧
      ∀ g : Option Str, wellformedB (get_current_version g).1 = true) :=
  ⟨Or.inr ⟨lit "banana", rfl, by decide⟩,
   c7_read_selfheals (some (lit "banana")) (Or.inr ⟨lit "banana", rfl, by decide⟩)⟩

/-- Claim C3 counterexample: in an apply run starting from version 1.2.3
with a major bump, the old-version argument the patch step receives from
its re-read of the version store is the new version 2.0.0, not the
previous on-disk version 1.2.3 the claim asserts, because the store was
overwritten earlier in the same flow; consequently an auxiliary file
still holding the 1.2.3 assignment is not matched and not staged. -/
theorem c3_counterexample :
    (update_files (lit "2.0.0") (lit "msg") (lit "feature") (lit "2025-06-01")
        false ⟨some (lit "1.2.3"), some (lit "# Changelog\nold"),
          [some (lit "version = \"1.2.3\"")]⟩).oldArg = lit "2.0.0" ∧
    (update_files (lit "2.0.0") (lit "msg") (lit "feature") (lit "2025-06-01")
        false ⟨some (lit "1.2.3"), some (lit "# Changelog\nold"),
          [some (lit "version = \"1.2.3\"")]⟩).oldArg ≠ lit "1.2.3" ∧
    (update_files (lit "2.0.0") (lit "msg") (lit "feature") (lit "2025-06-01")
        false ⟨some (lit "1.2.3"), some (lit "# Changelog\nold"),
          [some (lit "version = \"1.2.3\"")]⟩).files =
      [FileId.version, FileId.changelog] :=
  ⟨by decide, by decide, by decide⟩

/-- Claim C3 (amended): the apply-mode patch step does obtain its
old-version argument by re-reading the version store immediately before
patching, but since the store was already overwritten with the new
version earlier in the same flow, the value obtained is the new version
itself (for every well-formed new version and every starting state). -/
theorem c3_patch_uses_new_version (newV message category date : Str) (fs : FS)
    (h : wellformedB (pyStrip newV) = true) :
    (update_files newV message category date false fs).oldArg = pyStrip newV := by
  show (get_current_version (some (pyStrip newV))).1 = pyStrip newV
  simp only [get_current_version]
  rw [pyStrip_idem newV, if_pos h]

/-- Claim C3 witness: the amended statement at the documented 1.2.3 to
2.0.0 scenario. -/
theorem c3_patch_uses_new_version_witness :
    wellformedB (pyStrip (lit "2.0.0")) = true ∧
    (update_files (lit "2.0.0") (lit "m") (lit "feature") (lit "2025-06-01")
        false ⟨some (lit "1.2.3"), some (lit "# Changelog\nx"), []⟩).oldArg =
      pyStrip (lit "2.0.0") :=
  ⟨by decide,
   c3_patch_uses_new_version (lit "2.0.0") (lit "m") (lit "feature")
     (lit "2025-06-01") ⟨some (lit "1.2.3"), some (lit "# Changelog\nx"), []⟩
     (by decide)⟩

theorem update_files_dry_fs (newV msg cat date : Str) (fs : FS) :
    (update_files newV msg cat date true fs).fs =
      { fs with version := some (get_current_version fs.version).2 } := by
  have h := uvifGo_dry (get_current_version fs.version).1
      (pyReplace groupRef (get_current_version fs.version).1 newV) fs.aux 0
  simp only [update_files, update_version_in_files, if_true, h]

/-- Claim C2 (amended): a dry run never modifies the changelog file or
any auxiliary file, and when the version file exists and is well-formed
the whole filesystem is left exactly as it was; only a missing or
malformed version file is created or reset by the read step, dry run or
not. -/
theorem c2_dry_preserves (raw kind category date : Str) (genv : GitEnv)
    (steps : GitSteps) (fs : FS) (t : Str)
    (h1 : fs.version = some t) (h2 : wellformedB (pyStrip t) = true) :
    (mainRun raw kind category true genv steps date fs).fs = fs ∧
    ∀ fs2 : FS,
      (mainRun raw kind category true genv steps date fs2).fs.changelog =
          fs2.changelog ∧
        (mainRun raw kind category true genv steps date fs2).fs.aux = fs2.aux := by
  constructor
  · show (mainRest raw kind category true steps date fs []).fs = fs
    obtain ⟨v, ch, ax⟩ := fs
    simp only at h1
    subst h1
    have hg : get_current_version (some t) = (pyStrip t, t) := by
      simp only [get_current_version]
      rw [if_pos h2]
    simp only [mainRest]
    by_cases hm : pyStrip (normalizeMessage raw) = []
    · rw [if_pos hm]
    · rw [if_neg hm]
      simp only [if_true, update_files_dry_fs, hg]
  · intro fs2
    constructor
    · show (mainRest raw kind category true steps date fs2 []).fs.changelog =
        fs2.changelog
      simp only [mainRest]
      by_cases hm : pyStrip (normalizeMessage raw) = []
      · rw [if_pos hm]
      · rw [if_neg hm]
        simp only [if_true, update_files_dry_fs]
    · show (mainRest raw kind category true steps date fs2 []).fs.aux = fs2.aux
      simp only [mainRest]
      by_cases hm : pyStrip (normalizeMessage raw) = []
      · rw [if_pos hm]
      · rw [if_neg hm]
        simp only [if_true, update_files_dry_fs]

/-- Claim C2 counterexample: a dry run on a state where the version file
does not exist creates it with content 0.0.0 (through the self-healing
read), so the claim that no file is created in dry-run mode is false. -/
theorem c2_counterexample :
    (mainRun (lit "hello") (lit "patch") (lit "feature") true GitEnv.missing
        ⟨true, true, true, true, true⟩ (lit "2025-06-01")
        ⟨none, some (lit "# Changelog\n"), [some (lit "x")]⟩).fs.version =
      some (lit "0.0.0") ∧
    (FS.mk none (some (lit "# Changelog\n")) [some (lit "x")]).version = none :=
  ⟨by decide, rfl⟩

/-- Claim C2 witness: the amended statement at a well-formed on-disk
version file. -/
theorem c2_dry_preserves_witness :
    (FS.mk (some (lit "1.2.3")) (some (lit "# Changelog\n"))
        [some (lit "x")]).version = some (lit "1.2.3") ∧
    wellformedB (pyStrip (lit "1.2.3")) = true ∧
    ((mainRun (lit "hello") (lit "patch") (lit "feature") true GitEnv.missing
        ⟨true, true, true, true, true⟩ (lit "2025-06-01")
        (FS.mk (some (lit "1.2.3")) (some (lit "# Changelog\n"))
          [some (lit "x")])).fs =
      FS.mk (some (lit "1.2.3")) (some (lit "# Changelog\n")) [some (lit "x")] ∧
    ∀ fs2 : FS,
      (mainRun (lit "hello") (lit "patch") (lit "feature") true GitEnv.missing
          ⟨true, true, true, true, true⟩ (lit "2025-06-01") fs2).fs.changelog =
          fs2.changelog ∧
        (mainRun (lit "hello") (lit "patch") (lit "feature") true GitEnv.missing
          ⟨true, true, true, true, true⟩ (lit "2025-06-01") fs2).fs.aux =
          fs2.aux) :=
  ⟨rfl, by decide,
   c2_dry_preserves (lit "hello") (lit "patch") (lit "feature")
     (lit "2025-06-01") GitEnv.missing ⟨true, true, true, true, true⟩
     (FS.mk (some (lit "1.2.3")) (some (lit "# Changelog\n")) [some (lit "x")])
     (lit "1.2.3") rfl (by decide)⟩

theorem normalizeMessage_shape (raw : Str) :
    ∃ base, normalizeMessage raw =
      pyStripChars (pyStripChars base (fun c => c = dq)) (fun c => c = sqc) ∧
      (base = pyStrip raw ∨ base = raw) := by
  by_cases hc : ((isPrefixB (List.replicate 3 dq) raw ||
      isPrefixB (List.replicate 3 sqc) raw) &&
      (isSuffixB (List.replicate 3 dq) raw ||
        isSuffixB (List.replicate 3 sqc) raw)) = true
  · refine ⟨pyStrip raw, ?_, Or.inl rfl⟩
    simp only [normalizeMessage]
    rw [if_pos hc]
  · refine ⟨raw, ?_, Or.inr rfl⟩
    simp only [normalizeMessage]
    rw [if_neg hc]

/-- Claim C4 counterexample: on a message wrapped in two layers of double
quotes the normalization of the source strips both layers, not exactly
one as the claim states: the spec-modelled one-layer stripper keeps the
inner quotes and the two results differ. -/
theorem c4_counterexample :
    normalizeMessage (lit "\"\"x\"\"") = lit "x" ∧
    stripOneLayerSpec (lit "\"\"x\"\"") = lit "\"x\"" ∧
    normalizeMessage (lit "\"\"x\"\"") ≠ stripOneLayerSpec (lit "\"\"x\"\"") :=
  ⟨by decide, by decide, by decide⟩

/-- Claim C4 (amended): message normalization strips all leading and
trailing double quotes and then all leading and trailing single quotes
(after a whitespace trim when the message both starts and ends with a
triple-quote marker): the result is a contiguous substring of the raw
message carrying no leading or trailing single quote, and a run is
rejected with exit code 1 exactly when the trimmed result is empty. -/
theorem c4_normalize_strips_all (raw kind category date : Str) (genv : GitEnv)
    (steps : GitSteps) (fs : FS) :
    (∃ a b, raw = a ++ normalizeMessage raw ++ b) ∧
    pyStripChars (normalizeMessage raw) (fun c => c = sqc) =
      normalizeMessage raw ∧
    ((mainRun raw kind category true genv steps date fs).code = 1 ↔
      pyStrip (normalizeMessage raw) = []) := by
  obtain ⟨base, hbase, hor⟩ := normalizeMessage_shape raw
  refine ⟨?_, ?_, ?_⟩
  · have hb0 : ∃ a0 b0, raw = a0 ++ base ++ b0 := by
      rcases hor with h | h
      · subst h
        exact stripChars_decomp raw isPySpace
      · subst h
        exact ⟨[], [], by simp⟩
    obtain ⟨a0, b0, h0⟩ := hb0
    set V := pyStripChars base (fun c => c = dq) with hV
    set W := pyStripChars V (fun c => c = sqc) with hW
    obtain ⟨a1, b1, h1⟩ := stripChars_decomp base (fun c => c = dq)
    obtain ⟨a2, b2, h2⟩ := stripChars_decomp V (fun c => c = sqc)
    rw [← hV] at h1
    rw [← hW] at h2
    refine ⟨a0 ++ a1 ++ a2, b2 ++ b1 ++ b0, ?_⟩
    rw [hbase, h0, h1, h2]
    simp [List.append_assoc]
  · rw [hbase]
    exact stripChars_idem _ _
  · show (mainRest raw kind category true steps date fs []).code = 1 ↔
      pyStrip (normalizeMessage raw) = []
    simp only [mainRest]
    by_cases hm : pyStrip (normalizeMessage raw) = []
    · rw [if_pos hm]
      simp [hm]
    · rw [if_neg hm]
      simp [hm]

theorem mainRun_status (raw kind category out : Str) (steps : GitSteps)
    (date : Str) (fs : FS) :
    mainRun raw kind category false (GitEnv.status out) steps date fs =
      if pyStrip out = [] then
        mainRest raw kind category false steps date fs [GitCmd.status]
      else ⟨1, fs, [GitCmd.status]⟩ := rfl

theorem mainRest_empty_msg (raw kind category : Str) (d : Bool)
    (steps : GitSteps) (date : Str) (fs : FS) (tr : List GitCmd)
    (hm : pyStrip (normalizeMessage raw) = []) :
    mainRest raw kind category d steps date fs tr = ⟨1, fs, tr⟩ := by
  simp only [mainRest]
  rw [if_pos hm]

theorem mainRest_code_zero (raw kind category : Str) (d : Bool)
    (steps : GitSteps) (date : Str) (fs : FS) (tr : List GitCmd)
    (hm : pyStrip (normalizeMessage raw) ≠ []) :
    (mainRest raw kind category d steps date fs tr).code = 0 := by
  simp only [mainRest]
  rw [if_neg hm]
  cases d <;> rfl

/-- Claim C8: every fatal setup error of an apply run (version-control
binary missing, status query failing, dirty working tree, or empty
message after normalization) exits with code 1 and leaves the version
file, changelog file and auxiliary files exactly as they were: no partial
write occurs. -/
theorem c8_fatal_setup_no_writes (raw kind category date : Str) (genv : GitEnv)
    (steps : GitSteps) (fs : FS)
    (h : genv = GitEnv.missing ∨ genv = GitEnv.failing ∨
      (∃ out, genv = GitEnv.status out ∧ pyStrip out ≠ []) ∨
      pyStrip (normalizeMessage raw) = []) :
    (mainRun raw kind category false genv steps date fs).code = 1 ∧
    (mainRun raw kind category false genv steps date fs).fs = fs := by
  rcases h with h | h | ⟨out, h, hdirty⟩ | hmsg
  · subst h
    exact ⟨rfl, rfl⟩
  · subst h
    exact ⟨rfl, rfl⟩
  · subst h
    rw [mainRun_status, if_neg hdirty]
    exact ⟨rfl, rfl⟩
  · cases genv with
    | missing => exact ⟨rfl, rfl⟩
    | failing => exact ⟨rfl, rfl⟩
    | status out =>
      rw [mainRun_status]
      by_cases hcl : pyStrip out = []
      · rw [if_pos hcl, mainRest_empty_msg raw kind category false steps date fs
          [GitCmd.status] hmsg]
        exact ⟨rfl, rfl⟩
      · rw [if_neg hcl]
        exact ⟨rfl, rfl⟩

/-- Claim C8 witness: the theorem at a failing status query (not a git
repository), showing exit code 1 with the filesystem untouched. -/
theorem c8_fatal_setup_no_writes_witness :
    ((GitEnv.failing = GitEnv.missing ∨ GitEnv.failing = GitEnv.failing ∨
      (∃ out, GitEnv.failing = GitEnv.status out ∧ pyStrip out ≠ []) ∨
      pyStrip (normalizeMessage (lit "hello")) = [])) ∧
    ((mainRun (lit "hello") (lit "patch") (lit "feature") false GitEnv.failing
        ⟨true, true, true, true, true⟩ (lit "2025-06-01")
        (FS.mk (some (lit "1.2.3")) (some (lit "# Changelog\n")) [])).code = 1 ∧
      (mainRun (lit "hello") (lit "patch") (lit "feature") false GitEnv.failing
        ⟨true, true, true, true, true⟩ (lit "2025-06-01")
        (FS.mk (some (lit "1.2.3")) (some (lit "# Changelog\n")) [])).fs =
      FS.mk (some (lit "1.2.3")) (some (lit "# Changelog\n")) []) :=
  ⟨Or.inr (Or.inl rfl),
   c8_fatal_setup_no_writes (lit "hello") (lit "patch") (lit "feature")
     (lit "2025-06-01") GitEnv.failing ⟨true, true, true, true, true⟩
     (FS.mk (some (lit "1.2.3")) (some (lit "# Changelog\n")) [])
     (Or.inr (Or.inl rfl))⟩

/-- Claim C9: once setup succeeds (clean tree, readable status, nonempty
message), the run exits with code 0 for every combination of git step
failures: add, commit, tag and push failures are caught and reported, not
propagated; and conversely a nonzero exit only ever arises from a fatal
setup error (apply mode with the binary missing, the status query
failing, a dirty tree, or an empty normalized message). -/
theorem c9_git_failures_nonfatal (raw kind category date out : Str)
    (steps : GitSteps) (fs : FS)
    (hclean : pyStrip out = [])
    (hmsg : pyStrip (normalizeMessage raw) ≠ []) :
    (mainRun raw kind category false (GitEnv.status out) steps date fs).code =
      0 ∧
    ∀ (raw2 kind2 cat2 date2 : Str) (dry2 : Bool) (genv2 : GitEnv)
      (steps2 : GitSteps) (fs2 : FS),
      (mainRun raw2 kind2 cat2 dry2 genv2 steps2 date2 fs2).code ≠ 0 →
      ((dry2 = false ∧ (genv2 = GitEnv.missing ∨ genv2 = GitEnv.failing ∨
        ∃ o, genv2 = GitEnv.status o ∧ pyStrip o ≠ [])) ∨
        pyStrip (normalizeMessage raw2) = []) := by
  constructor
  · rw [mainRun_status, if_pos hclean]
    exact mainRest_code_zero raw kind category false steps date fs
      [GitCmd.status] hmsg
  · intro raw2 kind2 cat2 date2 dry2 genv2 steps2 fs2 hne
    cases dry2 with
    | true =>
      by_cases hm2 : pyStrip (normalizeMessage raw2) = []
      · exact Or.inr hm2
      · exact absurd (mainRest_code_zero raw2 kind2 cat2 true steps2 date2 fs2
          [] hm2) hne
    | false =>
      cases genv2 with
      | missing => exact Or.inl ⟨rfl, Or.inl rfl⟩
      | failing => exact Or.inl ⟨rfl, Or.inr (Or.inl rfl)⟩
      | status o =>
        by_cases hcl2 : pyStrip o = []
        · by_cases hm2 : pyStrip (normalizeMessage raw2) = []
          · exact Or.inr hm2
          · exfalso
            apply hne
            rw [mainRun_status, if_pos hcl2]
            exact mainRest_code_zero raw2 kind2 cat2 false steps2 date2 fs2
              [GitCmd.status] hm2
        · exact Or.inl ⟨rfl, Or.inr (Or.inr ⟨o, rfl, hcl2⟩)⟩

/-- Claim C9 witness: the theorem at a run in which every git step fails,
still exiting with code 0. -/
theorem c9_git_failures_nonfatal_witness :
    pyStrip (lit "") = [] ∧
    pyStrip (normalizeMessage (lit "hello")) ≠ [] ∧
    ((mainRun (lit "hello") (lit "patch") (lit "feature") false
        (GitEnv.status (lit "")) ⟨false, false, false, false, false⟩
        (lit "2025-06-01")
        (FS.mk (some (lit "1.2.3")) (some (lit "# Changelog\nx")) [])).code =
      0 ∧
    ∀ (raw2 kind2 cat2 date2 : Str) (dry2 : Bool) (genv2 : GitEnv)
      (steps2 : GitSteps) (fs2 : FS),
      (mainRun raw2 kind2 cat2 dry2 genv2 steps2 date2 fs2).code ≠ 0 →
      ((dry2 = false ∧ (genv2 = GitEnv.missing ∨ genv2 = GitEnv.failing ∨
        ∃ o, genv2 = GitEnv.status o ∧ pyStrip o ≠ [])) ∨
        pyStrip (normalizeMessage raw2) = [])) :=
  ⟨by decide, by decide,
   c9_git_failures_nonfatal (lit "hello") (lit "patch") (lit "feature")
     (lit "2025-06-01") (lit "") ⟨false, false, false, false, false⟩
     (FS.mk (some (lit "1.2.3")) (some (lit "# Changelog\nx")) [])
     (by decide) (by decide)⟩

/-- Claim C10: a dry run attempts no external git command at all (not
even the status query), its outcome does not depend on the git
environment or on which git steps would succeed, and it exits 0 exactly
when the normalized message is nonempty: in particular a dry run
completes successfully when the binary is absent or the directory is not
a repository. -/
theorem c10_dry_no_git (raw kind category date : Str) (genv genv2 : GitEnv)
    (steps steps2 : GitSteps) (fs : FS) :
    (mainRun raw kind category true genv steps date fs).trace = [] ∧
    mainRun raw kind category true genv steps date fs =
      mainRun raw kind category true genv2 steps2 date fs ∧
    ((mainRun raw kind category true genv steps date fs).code = 0 ↔
      pyStrip (normalizeMessage raw) ≠ []) := by
  refine ⟨?_, ?_, ?_⟩
  · show (mainRest raw kind category true steps date fs []).trace = []
    simp only [mainRest]
    by_cases hm : pyStrip (normalizeMessage raw) = []
    · rw [if_pos hm]
    · rw [if_neg hm]
      simp only [if_true]
  · show mainRest raw kind category true steps date fs [] =
      mainRest raw kind category true steps2 date fs []
    simp only [mainRest, if_true]
  · by_cases hm : pyStrip (normalizeMessage raw) = []
    · have h1 : (mainRun raw kind category true genv steps date fs).code = 1 := by
        show (mainRest raw kind category true steps date fs []).code = 1
        rw [mainRest_empty_msg raw kind category true steps date fs [] hm]
      rw [h1]
      simp [hm]
    · have h0 : (mainRun raw kind category true genv steps date fs).code = 0 :=
        mainRest_code_zero raw kind category true steps date fs [] hm
      rw [h0]
      simp [hm]
